import Mathlib

/-!
# Verification of `tprofiler::TimeProfiler` (time_profiler_visualizer)

Shallow embedding of `src/include/time_profiler/time_profiler.h` (the
header-only elapsed-time profiler, compiled with `ENABLE_STOPWATCH`).

Modelling conventions:
* C++ `double` values (elapsed times, buffer entries) are modelled as `ℚ`.
* The monotonic clock is an oracle: every operation that reads
  `std::chrono::high_resolution_clock::now()` takes the current time (already
  converted into the configured time unit, as the C++ `duration` cast does)
  as an explicit argument.
* `std::cout` diagnostics are modelled as a list of emitted messages
  (`List (List Char)`) returned next to the new state.
* The output sink (`std::ofstream m_outputFile`) is modelled by a flag
  `sinkOpen` and the file contents `file : Option (List Char)`;
  `none` means no file was ever created on disk.
* `rand()` and the wall-clock date used by `setFileName` are oracles passed
  as arguments (`r : Nat` and a `DateTime` record; `gmtime` means the
  `DateTime` is the UTC calendar time).
-/

namespace TProfiler

/-- C++ `double`, modelled as an exact rational. -/
abbrev Dbl := ℚ

/-! ## Decimal digit rendering (used by the stream output of numbers) -/

/-- The ASCII character of a decimal digit `d < 10`. -/
def digitChar (d : Nat) : Char := Char.ofNat (48 + d)

/-- Fuel-driven digit expansion (structural, so that concrete instances
reduce); `fuel ≥ n` always suffices. -/
def natDigitsFuel : Nat → Nat → List Char
  | 0, n => [digitChar n]
  | fuel + 1, n =>
    if n < 10 then [digitChar n]
    else natDigitsFuel fuel (n / 10) ++ [digitChar (n % 10)]

/-- Decimal digits of a natural number, most significant first
(the rendering `operator<<` performs for integral parts). -/
def natDigits (n : Nat) : List Char := natDigitsFuel n n

theorem natDigitsFuel_congr :
    ∀ fuel1 fuel2 n, n ≤ fuel1 → n ≤ fuel2 →
      natDigitsFuel fuel1 n = natDigitsFuel fuel2 n := by
  intro fuel1
  induction fuel1 with
  | zero =>
    intro fuel2 n h1 _
    interval_cases n
    cases fuel2 <;> simp [natDigitsFuel]
  | succ f1 ih =>
    intro fuel2 n h1 h2
    cases fuel2 with
    | zero =>
      interval_cases n
      simp [natDigitsFuel]
    | succ f2 =>
      by_cases h : n < 10
      · simp [natDigitsFuel, h]
      · simp only [natDigitsFuel, if_neg h]
        rw [ih f2 (n / 10) (by omega) (by omega)]

/-- The recursive characterisation of `natDigits`. -/
theorem natDigits_eq (n : Nat) :
    natDigits n = if n < 10 then [digitChar n]
      else natDigits (n / 10) ++ [digitChar (n % 10)] := by
  by_cases h : n < 10
  · rw [if_pos h]
    unfold natDigits
    cases n with
    | zero => rfl
    | succ m => simp [natDigitsFuel, h]
  · rw [if_neg h]
    unfold natDigits
    obtain ⟨m, rfl⟩ : ∃ m, n = m + 1 := ⟨n - 1, by omega⟩
    show natDigitsFuel (m + 1) (m + 1) = _
    simp only [natDigitsFuel, if_neg h]
    rw [natDigitsFuel_congr m ((m + 1) / 10) ((m + 1) / 10) (by omega) (by omega)]

/-- `10 ^ n` on naturals. -/
def pow10 : Nat → Nat
  | 0 => 1
  | n + 1 => 10 * pow10 n

/-- Is `a / b ≥ 10 ^ e` (for positive `a`, `b`)?  Integer arithmetic only. -/
def gePow10 (a b : Nat) : Int → Bool
  | Int.ofNat n => decide (b * pow10 n ≤ a)
  | Int.negSucc n => decide (b ≤ a * pow10 (n + 1))

/-- `⌊log10 (a / b)⌋` for positive naturals `a`, `b`: the candidate from the
digit counts, corrected by one comparison. -/
def exp10 (a b : Nat) : Int :=
  let e0 : Int := ((natDigits a).length : Int) - ((natDigits b).length : Int)
  if gePow10 a b e0 then e0 else e0 - 1

/-- Round `n / d` to the nearest integer, ties to even (the correctly
rounded decimal conversion the stream performs). -/
def divNearestEven (n d : Nat) : Nat :=
  let m := n / d
  let r := n % d
  if 2 * r < d then m
  else if d < 2 * r then m + 1
  else if m % 2 = 0 then m else m + 1

/-- Remove trailing `'0'` characters (`defaultfloat` strips trailing zeros
of the fractional part). -/
def stripZeros (l : List Char) : List Char :=
  (l.reverse.dropWhile (fun c => c = '0')).reverse

/-- Fixed notation for the 6-digit significand `digs` with decimal exponent
`x` (used when `-4 ≤ x < 6`): place the decimal point after position
`x + 1`, strip trailing fractional zeros, drop an empty fraction. -/
def fixedForm (digs : List Char) (x : Int) : List Char :=
  if x < 0 then
    '0' :: '.' :: stripZeros (List.replicate ((-x).toNat - 1) '0' ++ digs)
  else
    let ip := digs.take (x.toNat + 1)
    let frac := stripZeros (digs.drop (x.toNat + 1))
    if frac = [] then ip else ip ++ '.' :: frac

/-- The exponent field `e±XX` (sign always printed, at least two digits). -/
def expField (x : Int) : List Char :=
  let mag := natDigits x.natAbs
  'e' :: (if x < 0 then '-' else '+')
    :: (if mag.length = 1 then '0' :: mag else mag)

/-- Scientific notation `d.ddddd` followed by the exponent field, trailing
fractional zeros stripped (used when `x < -4` or `x ≥ 6`). -/
def sciForm (digs : List Char) (x : Int) : List Char :=
  let frac := stripZeros (digs.drop 1)
  (digs.take 1 ++ (if frac = [] then [] else '.' :: frac)) ++ expField x

/-- Choose fixed or scientific notation by the `%g` rule with precision 6. -/
def render6core (digs : List Char) (x : Int) : List Char :=
  if x < -4 ∨ 6 ≤ x then sciForm digs x else fixedForm digs x

/-- Six-significant-digit rendering of the positive rational `a / b`:
round to a 6-digit decimal significand (with carry), then format it. -/
def render6 (a b : Nat) : List Char :=
  let x0 := exp10 a b
  let s := if 0 ≤ 5 - x0 then divNearestEven (a * pow10 (5 - x0).toNat) b
           else divNearestEven a (b * pow10 (x0 - 5).toNat)
  let s6 := if s = pow10 6 then pow10 5 else s
  let x := if s = pow10 6 then x0 + 1 else x0
  render6core (natDigits s6) x

/-- The stream rendering of a `double` value (`m_outputFile << data`,
`std::cout << m_partial`): `defaultfloat` at the default precision 6,
i.e. `%g` — six significant digits, fixed notation for decimal exponents
in `[-4, 5]`, scientific otherwise, trailing fractional zeros removed,
zero printed as `0`.  The decimal significand is the exact rational
rounded to nearest, ties to even. -/
def ratDigits (q : Dbl) : List Char :=
  if q.num = 0 then ['0']
  else if q.num < 0 then '-' :: render6 q.num.natAbs q.den
  else render6 q.num.natAbs q.den

/-! ## The profiler state (`TimeProfiler<TM>` data members) -/

/-- The data members of `TimeProfiler<TM>`:
`m_buffer`, `m_total`, `m_partial` (here `part`), `m_count`,
`m_isInitialized` (here `isInit`), `m_startPoint`, and the sink
(`m_outputFile`) as an open flag plus the file contents.
`unit` is `TimeType<TM>::timeUnit`, fixed by the template argument. -/
structure Profiler where
  buffer : List Dbl
  total : Dbl
  part : Dbl
  count : Nat
  isInit : Bool
  startPoint : Dbl
  sinkOpen : Bool
  file : Option (List Char)
  unit : List Char
  deriving DecidableEq, Repr

/-- The header the constructor writes to a freshly opened sink:
`{"dataSet" : [\n{"name": "<name>", "color": "<colour>", "data":[`. -/
def header (name colour : List Char) : List Char :=
  ("\x7b\"dataSet\" : [\n\x7b\"name\": \"").data ++ name
    ++ ("\", \"color\": \"").data ++ colour ++ ("\", \"data\":[").data

/-- The constructor `TimeProfiler(name, colour, outputDir)`.
If `outputDir` is non-empty it opens the sink file (`openOK` is the oracle
for whether the OS-level open succeeded) and writes the dataset header;
otherwise no file is ever created (`file = none`). -/
def mkProfiler (name colour outputDir unit : List Char) (openOK : Bool) : Profiler :=
  let isOpen := outputDir.length > 0 && openOK
  { buffer := []
    total := 0
    part := 0
    count := 0
    isInit := false
    startPoint := 0
    sinkOpen := isOpen
    file := if isOpen then some (header name colour) else none
    unit := unit }

/-! ## Operations -/

/-- `start()`: record the current timestamp and mark the timer running. -/
def start (now : Dbl) (s : Profiler) : Profiler :=
  { s with isInit := true, startPoint := now }

/-- `elapsedTime()`: elapsed time since the reference point, converted into
the configured unit (the conversion is exact here since times are `ℚ`). -/
def elapsedTime (now : Dbl) (s : Profiler) : Dbl := now - s.startPoint

/-- `pause()`: if running, fold the elapsed segment into `m_partial` and
bump `m_count`; otherwise report.  Either way `m_isInitialized` ends false. -/
def pause (now : Dbl) (s : Profiler) : Profiler × List (List Char) :=
  if s.isInit then
    ({ s with part := s.part + elapsedTime now s
              count := s.count + 1
              isInit := false }, [])
  else
    ({ s with isInit := false }, [("Timer did not start.\n").data])

/-- `takeSample(print)`: finalize the current measurement into one buffer
entry (see the C++ body, lines 228–249 of the header). -/
def takeSample (now : Dbl) (pr : Bool) (s : Profiler) : Profiler × List (List Char) :=
  if !s.isInit && s.count == 0 then
    (s, [("Timer did not start.\n").data])
  else
    let p : Dbl := if s.count == 0 then elapsedTime now s else s.part
    let msgs := if pr then
        [("Elapsed time:").data ++ ratDigits p ++ (" ").data ++ s.unit ++ ("\n").data]
      else []
    ({ s with buffer := s.buffer ++ [p]
              total := s.total + p
              part := 0
              count := 0
              isInit := false }, msgs)

/-- `takeAverageSample(print)`: append `m_partial / m_count` when
`m_count > 0`, accumulate the un-averaged `m_partial` into `m_total`,
and reset (lines 259–283 of the header). -/
def takeAverageSample (pr : Bool) (s : Profiler) : Profiler × List (List Char) :=
  if s.count == 0 then
    (s, [("use pause() to capture elapsed times\n").data])
  else
    let averageTime : Dbl := s.part / (s.count : Dbl)
    let msgs := if pr then
        [("Average elapsed time: ").data ++ ratDigits averageTime ++ s.unit]
      else []
    ({ s with buffer := s.buffer ++ [averageTime]
              count := 0
              total := s.total + s.part
              part := 0
              isInit := false }, msgs)

/-- `totalTime()`: the text printed (`m_total` followed by the unit label);
read-only. -/
def totalTime (s : Profiler) : List Char := ratDigits s.total ++ s.unit

/-- `reset()`: clear the measurement state and empty the buffer.
The sink members are not touched. -/
def reset (s : Profiler) : Profiler :=
  { s with isInit := false, total := 0, part := 0, count := 0, buffer := [] }

/-- The serialization loop of `flush()`:
`bool a=false; for(double data : m_buffer){ if(a) out<<", "; out<<data; a=true; }`
accumulated into `out`. -/
def joinData : List Dbl → Bool → List Char → List Char
  | [], _, out => out
  | d :: ds, a, out =>
      joinData ds true ((if a then out ++ (", ").data else out) ++ ratDigits d)

/-- What `flush()` appends after the data entries:
`]}\n` then `], "timeUnits": "<unit>"}\n`. -/
def footer (unit : List Char) : List Char :=
  ("]\x7d\n], \"timeUnits\": \"").data ++ unit ++ ("\"\x7d\n").data

/-- `flush()`: if the sink is open, serialize the buffer and the footer,
close the sink, and finish with `reset()` (lines 353–375 of the header). -/
def flush (s : Profiler) : Profiler :=
  if s.sinkOpen then
    reset { s with
      file := some ((s.file.getD []) ++ joinData s.buffer false [] ++ footer s.unit)
      sinkOpen := false }
  else
    reset s

/-! ## `setFileName` (lines 98–115 of the header) -/

/-- A broken-down UTC calendar time, as produced by `gmtime`. -/
structure DateTime where
  year : Nat
  month : Nat
  day : Nat
  hour : Nat
  minute : Nat
  second : Nat
  deriving DecidableEq, Repr

/-- A zero-padded two-digit field, as `strftime` renders `%y %m %d %H %M %S`. -/
def twoDigits (n : Nat) : List Char := [digitChar (n / 10 % 10), digitChar (n % 10)]

/-- `strftime(timeString, 31, "_%y%m%d%H%M%S", gmtime(&time))`:
an underscore followed by the six two-digit fields. -/
def timeString (t : DateTime) : List Char :=
  '_' :: (twoDigits t.year ++ twoDigits t.month ++ twoDigits t.day
    ++ twoDigits t.hour ++ twoDigits t.minute ++ twoDigits t.second)

/-- `setFileName(outputDir, name, pfx)` with the `rand()` value `r` and the
UTC time `t` as oracles.  `10+(rand()%90)` is the two-digit random suffix. -/
def setFileName (outputDir name pfx : List Char) (r : Nat) (t : DateTime) : List Char :=
  (outputDir ++ (if outputDir.length > 0 then ("/").data else []))
    ++ pfx ++ name ++ natDigits (10 + r % 90) ++ timeString t ++ (".js").data

/-- Modelled from the spec: the file-naming convention as §6 words it,
`<outputDir>/line_dataset_<name><2-digit-random><YYMMDDHHMMSS-UTC>.js` —
the random digits directly followed by the twelve timestamp digits. -/
def specFileName (outputDir name : List Char) (r : Nat) (t : DateTime) : List Char :=
  outputDir ++ ("/").data ++ ("line_dataset_").data ++ name
    ++ natDigits (10 + r % 90)
    ++ (twoDigits t.year ++ twoDigits t.month ++ twoDigits t.day
      ++ twoDigits t.hour ++ twoDigits t.minute ++ twoDigits t.second)
    ++ (".js").data

/-! ## Parsing (the consumer side of the round-trip property) -/

/-- Numeric value of an ASCII digit character. -/
def digitVal (c : Char) : Nat := c.toNat - 48

/-- Decimal digits (most significant first) to a natural number. -/
def digitsToNat (cs : List Char) : Nat :=
  cs.foldl (fun acc c => 10 * acc + digitVal c) 0

/-- Parse an optionally-signed decimal numeral with optional fractional
part and optional `e±XX` exponent — the format the stream writes — into an
exact rational (`sign · (ipart.fpart) · 10^exponent`). -/
def parseRat (cs : List Char) : Dbl :=
  let (sgn, cs1) : Int × List Char :=
    if cs.head? = some '-' then (-1, cs.drop 1) else (1, cs)
  let ip := cs1.takeWhile (fun c => !(c == '.' || c == 'e'))
  let rest := cs1.dropWhile (fun c => !(c == '.' || c == 'e'))
  let (fp, rest2) : List Char × List Char :=
    if rest.head? = some '.' then
      ((rest.drop 1).takeWhile (fun c => !(c == 'e')),
        (rest.drop 1).dropWhile (fun c => !(c == 'e')))
    else ([], rest)
  let ex : Int :=
    if rest2.head? = some 'e' then
      if (rest2.drop 1).head? = some '-' then -(digitsToNat (rest2.drop 2) : Int)
      else if (rest2.drop 1).head? = some '+' then (digitsToNat (rest2.drop 2) : Int)
      else (digitsToNat (rest2.drop 1) : Int)
    else 0
  let mant : Int := sgn * ((digitsToNat ip * pow10 fp.length + digitsToNat fp : Nat) : Int)
  let ex2 : Int := ex - (fp.length : Int)
  if 0 ≤ ex2 then mkRat (mant * (pow10 ex2.toNat : Nat)) 1
  else mkRat mant (pow10 (-ex2).toNat)

/-- Split a character list at every comma. -/
def splitOnComma : List Char → List (List Char)
  | [] => [[]]
  | c :: cs =>
    let r := splitOnComma cs
    if c = ',' then [] :: r
    else
      match r with
      | [] => [[c]]
      | h :: t => (c :: h) :: t

/-- Parse the contents of the serialized `data` array: split at the commas,
discard the separating spaces, parse each numeral.  The empty contents denote
the empty array. -/
def parseDataList (l : List Char) : List Dbl :=
  if l = [] then []
  else (splitOnComma l).map (fun p => parseRat (p.dropWhile (fun c => c = ' ')))

/-- `", "`-prefixed concatenation of the entries after the first. -/
def joinRest : List (List Char) → List Char
  | [] => []
  | q :: ps => ',' :: ' ' :: (q ++ joinRest ps)

/-- Reference form of the serialized data entries: the entries separated by
`", "`, no separator before the first nor after the last. -/
def joinCommaSep : List (List Char) → List Char
  | [] => []
  | p :: ps => p ++ joinRest ps

/-! ## Digit lemmas -/

/-- ASCII digit characters. -/
def isDigitCh (c : Char) : Prop := 48 ≤ c.toNat ∧ c.toNat ≤ 57

theorem digitVal_digitChar {d : Nat} (h : d < 10) : digitVal (digitChar d) = d := by
  interval_cases d <;> decide

theorem isDigitCh_digitChar {d : Nat} (h : d < 10) : isDigitCh (digitChar d) := by
  interval_cases d <;> exact ⟨by decide, by decide⟩

theorem natDigits_ne_nil (n : Nat) : natDigits n ≠ [] := by
  rw [natDigits_eq]
  by_cases h : n < 10 <;> simp [h]

theorem mem_natDigits {n : Nat} {c : Char} (hc : c ∈ natDigits n) : isDigitCh c := by
  induction n using Nat.strong_induction_on with
  | _ n ih =>
    rw [natDigits_eq] at hc
    by_cases h : n < 10
    · simp only [if_pos h, List.mem_singleton] at hc
      exact hc ▸ isDigitCh_digitChar h
    · simp only [if_neg h, List.mem_append, List.mem_singleton] at hc
      rcases hc with hc | hc
      · exact ih (n / 10) (Nat.div_lt_self (by omega) (by omega)) hc
      · exact hc ▸ isDigitCh_digitChar (Nat.mod_lt n (by omega))

theorem digitsToNat_natDigits (n : Nat) : digitsToNat (natDigits n) = n := by
  induction n using Nat.strong_induction_on with
  | _ n ih =>
    rw [natDigits_eq]
    by_cases h : n < 10
    · simp [h, digitsToNat, digitVal_digitChar h]
    · rw [if_neg h]
      unfold digitsToNat at ih ⊢
      rw [List.foldl_append, ih (n / 10) (Nat.div_lt_self (by omega) (by omega))]
      simp [digitVal_digitChar (Nat.mod_lt n (by omega)), Nat.div_add_mod]

/-- The character classes the stream rendering can emit: digits, sign
characters, the decimal point and the exponent marker. -/
def numChar (c : Char) : Prop :=
  isDigitCh c ∨ c = '-' ∨ c = '+' ∨ c = '.' ∨ c = 'e'

theorem numChar_ne_comma {c : Char} (h : numChar c) : c ≠ ',' := by
  rcases h with h | rfl | rfl | rfl | rfl
  · rintro rfl
    rcases h with ⟨h1, _⟩
    revert h1
    decide
  all_goals decide

theorem numChar_ne_space {c : Char} (h : numChar c) : c ≠ ' ' := by
  rcases h with h | rfl | rfl | rfl | rfl
  · rintro rfl
    rcases h with ⟨h1, _⟩
    revert h1
    decide
  all_goals decide

theorem mem_dropWhile {p : Char → Bool} {l : List Char} {c : Char}
    (hc : c ∈ l.dropWhile p) : c ∈ l := by
  induction l with
  | nil => simp at hc
  | cons a t ih =>
    rw [List.dropWhile_cons] at hc
    by_cases hp : p a = true
    · rw [if_pos hp] at hc
      exact List.mem_cons_of_mem a (ih hc)
    · rwa [if_neg hp] at hc

theorem mem_stripZeros {l : List Char} {c : Char} (hc : c ∈ stripZeros l) :
    c ∈ l := by
  unfold stripZeros at hc
  rw [List.mem_reverse] at hc
  have := mem_dropWhile hc
  rwa [List.mem_reverse] at this

theorem mem_fixedForm {digs : List Char} {x : Int} {c : Char}
    (hc : c ∈ fixedForm digs x) : c ∈ digs ∨ c = '0' ∨ c = '.' := by
  simp only [fixedForm] at hc
  split at hc
  · rcases List.mem_cons.mp hc with rfl | hc
    · exact Or.inr (Or.inl rfl)
    rcases List.mem_cons.mp hc with rfl | hc
    · exact Or.inr (Or.inr rfl)
    rcases List.mem_append.mp (mem_stripZeros hc) with h | h
    · exact Or.inr (Or.inl (List.eq_of_mem_replicate h))
    · exact Or.inl h
  · split at hc
    · exact Or.inl (List.take_subset _ _ hc)
    · rcases List.mem_append.mp hc with h | h
      · exact Or.inl (List.take_subset _ _ h)
      rcases List.mem_cons.mp h with rfl | h
      · exact Or.inr (Or.inr rfl)
      · exact Or.inl (List.drop_subset _ _ (mem_stripZeros h))

theorem mem_expField {x : Int} {c : Char} (hc : c ∈ expField x) :
    isDigitCh c ∨ c = 'e' ∨ c = '+' ∨ c = '-' := by
  simp only [expField] at hc
  rcases List.mem_cons.mp hc with rfl | hc
  · tauto
  rcases List.mem_cons.mp hc with rfl | hc
  · split <;> tauto
  · split at hc
    · rcases List.mem_cons.mp hc with rfl | hc
      · exact Or.inl ⟨by decide, by decide⟩
      · exact Or.inl (mem_natDigits hc)
    · exact Or.inl (mem_natDigits hc)

theorem mem_sciForm {digs : List Char} {x : Int} {c : Char}
    (hc : c ∈ sciForm digs x) :
    c ∈ digs ∨ c = '.' ∨ isDigitCh c ∨ c = 'e' ∨ c = '+' ∨ c = '-' := by
  simp only [sciForm] at hc
  rcases List.mem_append.mp hc with h | h
  · rcases List.mem_append.mp h with h | h
    · exact Or.inl (List.take_subset _ _ h)
    · split at h
      · simp at h
      · rcases List.mem_cons.mp h with rfl | h
        · tauto
        · exact Or.inl (List.drop_subset _ _ (mem_stripZeros h))
  · have := mem_expField h
    tauto

theorem mem_render6core {digs : List Char} {x : Int} {c : Char}
    (hd : ∀ d ∈ digs, isDigitCh d) (hc : c ∈ render6core digs x) :
    numChar c := by
  unfold numChar
  simp only [render6core] at hc
  split at hc
  · rcases mem_sciForm hc with h | h
    · exact Or.inl (hd c h)
    · tauto
  · rcases mem_fixedForm hc with h | h | h
    · exact Or.inl (hd c h)
    · subst h
      exact Or.inl ⟨by decide, by decide⟩
    · tauto

theorem mem_render6 {a b : Nat} {c : Char} (hc : c ∈ render6 a b) :
    numChar c := by
  simp only [render6] at hc
  exact mem_render6core (fun d hd => mem_natDigits hd) hc

theorem mem_ratDigits {q : Dbl} {c : Char} (hc : c ∈ ratDigits q) :
    numChar c := by
  simp only [ratDigits] at hc
  split at hc
  · rcases List.mem_singleton.mp hc with rfl
    exact Or.inl ⟨by decide, by decide⟩
  · split at hc
    · rcases List.mem_cons.mp hc with rfl | hc
      · exact Or.inr (Or.inl rfl)
      · exact mem_render6 hc
    · exact mem_render6 hc

theorem ratDigits_comma_free {q : Dbl} {c : Char} (hc : c ∈ ratDigits q) :
    c ≠ ',' :=
  numChar_ne_comma (mem_ratDigits hc)

theorem take_succ_ne_nil {l : List Char} (n : Nat) (h : l ≠ []) :
    l.take (n + 1) ≠ [] := by
  cases l with
  | nil => exact absurd rfl h
  | cons a t => simp [List.take_succ_cons]

theorem fixedForm_ne_nil {digs : List Char} {x : Int} (h : digs ≠ []) :
    fixedForm digs x ≠ [] := by
  simp only [fixedForm]
  split
  · simp
  · split
    · exact take_succ_ne_nil _ h
    · simp

theorem sciForm_ne_nil {digs : List Char} {x : Int} : sciForm digs x ≠ [] := by
  simp [sciForm, expField]

theorem render6core_ne_nil {digs : List Char} {x : Int} (h : digs ≠ []) :
    render6core digs x ≠ [] := by
  simp only [render6core]
  split
  · exact sciForm_ne_nil
  · exact fixedForm_ne_nil h

theorem render6_ne_nil (a b : Nat) : render6 a b ≠ [] := by
  simp only [render6]
  exact render6core_ne_nil (natDigits_ne_nil _)

/-! ## Serialization-loop and split lemmas -/

/-- The `", "`-prefixed tail entries written once the loop flag is set. -/
def joinTail : List Dbl → List Char
  | [] => []
  | d :: ds => (", ").data ++ ratDigits d ++ joinTail ds

theorem sepChars : (", ").data = [',', ' '] := rfl

theorem joinData_true (ds : List Dbl) (out : List Char) :
    joinData ds true out = out ++ joinTail ds := by
  induction ds generalizing out with
  | nil => simp [joinData, joinTail]
  | cons d ds ih => simp [joinData, joinTail, ih]

theorem joinRest_map (ds : List Dbl) : joinRest (ds.map ratDigits) = joinTail ds := by
  induction ds with
  | nil => rfl
  | cons e ds ih => simp [joinRest, joinTail, ih, sepChars]

theorem joinCommaSep_map (d : Dbl) (ds : List Dbl) :
    joinCommaSep ((d :: ds).map ratDigits) = ratDigits d ++ joinTail ds := by
  simp [joinCommaSep, joinRest_map]

theorem joinData_spec (ds : List Dbl) :
    joinData ds false [] = joinCommaSep (ds.map ratDigits) := by
  cases ds with
  | nil => rfl
  | cons d ds =>
    show joinData ds true (ratDigits d) = _
    rw [joinData_true, joinCommaSep_map]

theorem splitOnComma_comma_free (l : List Char) (h : ∀ c ∈ l, c ≠ ',') :
    splitOnComma l = [l] := by
  induction l with
  | nil => rfl
  | cons c cs ih =>
    have hc : c ≠ ',' := h c (List.mem_cons_self c cs)
    simp [splitOnComma, hc, ih (fun x hx => h x (List.mem_cons_of_mem c hx))]

theorem splitOnComma_append_comma (l1 l2 : List Char) (h : ∀ c ∈ l1, c ≠ ',') :
    splitOnComma (l1 ++ ',' :: l2) = l1 :: splitOnComma l2 := by
  induction l1 with
  | nil => simp [splitOnComma]
  | cons c cs ih =>
    have hc : c ≠ ',' := h c (List.mem_cons_self c cs)
    simp [splitOnComma, hc, ih (fun x hx => h x (List.mem_cons_of_mem c hx))]

theorem splitOnComma_joinCommaSep (p : List Char) (ps : List (List Char))
    (hp : ∀ c ∈ p, c ≠ ',') (hps : ∀ q ∈ ps, ∀ c ∈ q, c ≠ ',') :
    splitOnComma (joinCommaSep (p :: ps)) = p :: ps.map (fun q => ' ' :: q) := by
  induction ps generalizing p with
  | nil => simp [joinCommaSep, joinRest, splitOnComma_comma_free p hp]
  | cons q ps ih =>
    have hq := ih q (hps q (List.mem_cons_self q ps))
      (fun r hr => hps r (List.mem_cons_of_mem q hr))
    show splitOnComma (p ++ ',' :: ' ' :: (q ++ joinRest ps)) = _
    rw [splitOnComma_append_comma _ _ hp]
    have : ' ' :: (q ++ joinRest ps) = ' ' :: joinCommaSep (q :: ps) := rfl
    rw [this]
    simp [splitOnComma, hq]

theorem ratDigits_ne_nil (q : Dbl) : ratDigits q ≠ [] := by
  simp only [ratDigits]
  split
  · simp
  · split
    · simp
    · exact render6_ne_nil _ _

theorem ratDigits_not_space {q : Dbl} {c : Char} (hc : c ∈ ratDigits q) :
    c ≠ ' ' :=
  numChar_ne_space (mem_ratDigits hc)

theorem dropWhile_eq_self_of_none {p : Char → Bool} {l : List Char}
    (h : ∀ c ∈ l, p c = false) : l.dropWhile p = l := by
  cases l with
  | nil => rfl
  | cons a t =>
    rw [List.dropWhile_cons, h a (List.mem_cons_self a t)]
    simp

theorem dropSpaces_ratDigits (q : Dbl) :
    (ratDigits q).dropWhile (fun c => c = ' ') = ratDigits q :=
  dropWhile_eq_self_of_none (fun c hc => by
    simp [ratDigits_not_space hc])

theorem parseEntry_space_ratDigits (q : Dbl) :
    parseRat ((' ' :: ratDigits q).dropWhile (fun c => c = ' '))
      = parseRat (ratDigits q) := by
  rw [List.dropWhile_cons]
  simp [dropSpaces_ratDigits]

theorem map_parse_spaced (ds : List Dbl) :
    ((ds.map ratDigits).map (fun q => ' ' :: q)).map
      (fun p => parseRat (p.dropWhile (fun c => c = ' ')))
      = ds.map (fun v => parseRat (ratDigits v)) := by
  induction ds with
  | nil => rfl
  | cons e ds ih => simp only [List.map_cons, ih, parseEntry_space_ratDigits]

/-- Parsing the serialized entries yields, entry for entry and in order, the
parse of each buffered value's stream rendering. -/
theorem parseDataList_joinData (l : List Dbl) :
    parseDataList (joinData l false [])
      = l.map (fun v => parseRat (ratDigits v)) := by
  cases l with
  | nil => rfl
  | cons d ds =>
    rw [joinData_spec]
    have hsplit := splitOnComma_joinCommaSep (ratDigits d) (ds.map ratDigits)
      (fun c hc => ratDigits_comma_free hc)
      (by
        intro q hq c hc
        obtain ⟨e, _, rfl⟩ := List.mem_map.mp hq
        exact ratDigits_comma_free hc)
    have hne : joinCommaSep ((d :: ds).map ratDigits) ≠ [] := by
      rw [joinCommaSep_map]
      simp [ratDigits_ne_nil]
    unfold parseDataList
    simp only [List.map_cons] at hne ⊢
    rw [if_neg hne, hsplit]
    simp only [List.map_cons]
    rw [dropSpaces_ratDigits, map_parse_spaced]

/-! ## Segment runs: `start(t₁); pause(t₂)` pairs -/

/-- Execute `start(t₁); pause(t₂)` for every pair of the list, in order. -/
def runSegments : Profiler → List (Dbl × Dbl) → Profiler
  | s, [] => s
  | s, g :: rest => runSegments (pause g.2 (start g.1 s)).1 rest

/-- Effect of a run of segments on the accumulator state: each segment's
elapsed time is folded into `m_partial` and counted once; nothing else of
the state changes. -/
theorem runSegments_state (L : List (Dbl × Dbl)) (s : Profiler) :
    (runSegments s L).part = s.part + (L.map (fun g => g.2 - g.1)).sum ∧
    (runSegments s L).count = s.count + L.length ∧
    (runSegments s L).buffer = s.buffer ∧
    (runSegments s L).total = s.total ∧
    (runSegments s L).sinkOpen = s.sinkOpen ∧
    (runSegments s L).file = s.file ∧
    (runSegments s L).unit = s.unit := by
  induction L generalizing s with
  | nil => simp [runSegments]
  | cons g rest ih =>
    have h := ih (pause g.2 (start g.1 s)).1
    simp only [runSegments, pause, start, elapsedTime, if_pos] at h ⊢
    refine ⟨?_, ?_, h.2.2.1, h.2.2.2.1, h.2.2.2.2.1, h.2.2.2.2.2.1, h.2.2.2.2.2.2⟩
    · rw [h.1]
      simp
      ring
    · rw [h.2.1]
      simp
      omega

/-! ## Example states (used to instantiate the theorems) -/

/-- A profiler constructed with an empty output directory. -/
def emptyProf : Profiler :=
  mkProfiler ("n").data ("c").data [] ("ms").data true

/-- A profiler constructed with output directory `"o"` (open sink). -/
def openProf : Profiler :=
  mkProfiler ("n").data ("c").data ("o").data ("ms").data true

/-- `emptyProf` after `start(2); pause(5)`: one captured segment. -/
def pausedProf : Profiler := (pause 5 (start 2 emptyProf)).1

/-- `openProf` after `start(2); takeSample(7)`: one buffered sample,
sink still open. -/
def sampledProf : Profiler := (takeSample 7 false (start 2 openProf)).1

/-- A state holding the buffered sample `1/3` (as produced by, e.g.,
`takeAverageSample` over three paused segments totalling 1). -/
def cexProf : Profiler :=
  { buffer := [mkRat 1 3], total := 0, part := 0, count := 0, isInit := false,
    startPoint := 0, sinkOpen := false, file := none, unit := ("ms").data }

/-- A state whose buffered samples (`1/2` and `5`) are exactly representable
in the stream's six-significant-digit output. -/
def repProf : Profiler :=
  { buffer := [mkRat 1 2, mkRat 5 1], total := 0, part := 0, count := 0,
    isInit := false, startPoint := 0, sinkOpen := false, file := none,
    unit := ("ms").data }

theorem natDigits_length_two {v : Nat} (h1 : 10 ≤ v) (h2 : v ≤ 99) :
    (natDigits v).length = 2 := by
  rw [natDigits_eq, if_neg (by omega), natDigits_eq, if_pos (by omega)]
  simp

/-! ## The claims -/

/-- C1: for every state with `count > 0`, `takeAverageSample` appends exactly
`partial / count` to the buffer, adds the un-averaged sum `partial` to
`total`, and resets `partial` to 0, `count` to 0 and `running` to false;
and after any non-empty sequence of start/pause segment pairs from a fresh
state, the appended value is (sum of elapsed segments)/(segment count). -/
theorem c1_takeAverageSample (s : Profiler) (pr : Bool) (h : 0 < s.count)
    (s0 : Profiler) (pr0 : Bool) (L : List (Dbl × Dbl))
    (h0p : s0.part = 0) (h0c : s0.count = 0) (hL : L ≠ []) :
    ((takeAverageSample pr s).1.buffer = s.buffer ++ [s.part / (s.count : Dbl)] ∧
     (takeAverageSample pr s).1.total = s.total + s.part ∧
     (takeAverageSample pr s).1.part = 0 ∧
     (takeAverageSample pr s).1.count = 0 ∧
     (takeAverageSample pr s).1.isInit = false) ∧
    (takeAverageSample pr0 (runSegments s0 L)).1.buffer
      = s0.buffer ++ [(L.map (fun g => g.2 - g.1)).sum / (L.length : Dbl)] := by
  have hne : s.count ≠ 0 := Nat.pos_iff_ne_zero.mp h
  constructor
  · simp [takeAverageSample, hne]
  · have hst := runSegments_state L s0
    have hcount : (runSegments s0 L).count = L.length := by
      rw [hst.2.1, h0c, Nat.zero_add]
    have hpart : (runSegments s0 L).part = (L.map (fun g => g.2 - g.1)).sum := by
      rw [hst.1, h0p, zero_add]
    have hLne : (runSegments s0 L).count ≠ 0 := by
      rw [hcount]
      simpa using hL
    simp [takeAverageSample, hLne, hpart, hcount, hst.2.2.1, hL]

/-- C2: flushing a timer with an open sink appends the buffer as a
comma-separated data array (entries in insertion order, separator between
entries only), closing the fixed layout
`{"dataSet" : [ {"name": …, "color": …, "data":[…]} ], "timeUnits": …}`
with the `timeUnits` field holding the configured unit label. -/
theorem c2_flush_layout (s : Profiler) (name colour : List Char)
    (hopen : s.sinkOpen = true) (hfile : s.file = some (header name colour)) :
    (flush s).file = some (("\x7b\"dataSet\" : [\n\x7b\"name\": \"").data ++ name
      ++ ("\", \"color\": \"").data ++ colour ++ ("\", \"data\":[").data
      ++ joinCommaSep (s.buffer.map ratDigits)
      ++ ("]\x7d\n], \"timeUnits\": \"").data ++ s.unit ++ ("\"\x7d\n").data) ∧
    (s.buffer.map ratDigits).length = s.buffer.length ∧
    (∀ nm cl dir u ok, (mkProfiler nm cl dir u ok).unit = u) := by
  refine ⟨?_, by simp, fun nm cl dir u ok => rfl⟩
  simp [flush, reset, hopen, hfile, header, footer, joinData_spec,
    List.append_assoc]

/-- C3 counterexample: the serialization writes doubles at the stream's
default precision of six significant digits, which is lossy — for the
buffered sample `1/3` the file holds `0.333333`, and parsing the flushed
data array does not reproduce the buffer. -/
theorem c3_counterexample :
    parseDataList (joinData cexProf.buffer false []) ≠ cexProf.buffer := by
  decide

/-- C3 (amended): parsing the flushed data array yields exactly one value
per buffered sample, in order — the parse of that sample's
six-significant-digit stream rendering; whenever that formatting leaves
every buffered value unchanged, the original sequence is reproduced
exactly. -/
theorem c3_roundTrip (s : Profiler)
    (hrep : ∀ v ∈ s.buffer, parseRat (ratDigits v) = v) :
    parseDataList (joinData s.buffer false [])
      = s.buffer.map (fun v => parseRat (ratDigits v)) ∧
    parseDataList (joinData s.buffer false []) = s.buffer := by
  refine ⟨parseDataList_joinData s.buffer, ?_⟩
  rw [parseDataList_joinData]
  calc s.buffer.map (fun v => parseRat (ratDigits v))
      = s.buffer.map id := List.map_congr_left hrep
    _ = s.buffer := List.map_id s.buffer

/-- C4: `takeSample` on a timer that was never started and has no pending
paused segments (`count = 0`, not running) emits the "Timer did not start."
advisory and leaves the whole state unchanged. -/
theorem c4_takeSample_neverStarted (s : Profiler) (now : Dbl) (pr : Bool)
    (hc : s.count = 0) (hi : s.isInit = false) :
    takeSample now pr s = (s, [("Timer did not start.\n").data]) := by
  simp [takeSample, hc, hi]

/-- C5: `start` immediately followed by `takeSample` with no intervening
`pause` appends exactly one entry equal to the elapsed time between the two
calls, adds it to `total`, and leaves `count = 0`, `partial = 0`, not
running. -/
theorem c5_singleShot (s : Profiler) (t1 t2 : Dbl) (pr : Bool)
    (hc : s.count = 0) :
    (takeSample t2 pr (start t1 s)).1.buffer = s.buffer ++ [t2 - t1] ∧
    (takeSample t2 pr (start t1 s)).1.total = s.total + (t2 - t1) ∧
    (takeSample t2 pr (start t1 s)).1.count = 0 ∧
    (takeSample t2 pr (start t1 s)).1.part = 0 ∧
    (takeSample t2 pr (start t1 s)).1.isInit = false := by
  simp [takeSample, start, elapsedTime, hc]

/-- C6: `reset` clears `running`/`total`/`partial`/`count`, empties the
buffer, and leaves the sink untouched (open flag and file contents
unchanged); `totalTime` right after `reset` reports zero. -/
theorem c6_reset (s : Profiler) :
    (reset s).isInit = false ∧ (reset s).total = 0 ∧ (reset s).part = 0 ∧
    (reset s).count = 0 ∧ (reset s).buffer = [] ∧
    (reset s).sinkOpen = s.sinkOpen ∧ (reset s).file = s.file ∧
    (reset s).unit = s.unit ∧
    totalTime (reset s) = ratDigits 0 ++ s.unit := by
  simp [reset, totalTime]

/-- C7 counterexample: the generated path does not match the literal spec
pattern `<outputDir>/line_dataset_<name><2-digit-random><YYMMDDHHMMSS>.js` —
the code inserts an underscore before the timestamp. -/
theorem c7_counterexample :
    setFileName ("o").data ("n").data ("line_dataset_").data 0
        ⟨25, 10, 11, 12, 0, 0⟩
      ≠ specFileName ("o").data ("n").data 0 ⟨25, 10, 11, 12, 0, 0⟩ := by
  decide

/-- C7 (amended): with a non-empty output directory the sink file path is
`<outputDir>/line_dataset_<name><2-digit-random>_<YYMMDDHHMMSS-UTC>.js`
(underscore between the random component and the timestamp), with the
random component `10 + rand() % 90` lying in `[10, 99]` (two digits). -/
theorem c7_fileName (outputDir name : List Char) (r : Nat) (t : DateTime)
    (h : outputDir ≠ []) :
    setFileName outputDir name ("line_dataset_").data r t
      = outputDir ++ ("/").data ++ ("line_dataset_").data ++ name
        ++ natDigits (10 + r % 90)
        ++ ('_' :: (twoDigits t.year ++ twoDigits t.month ++ twoDigits t.day
          ++ twoDigits t.hour ++ twoDigits t.minute ++ twoDigits t.second))
        ++ (".js").data ∧
    10 ≤ 10 + r % 90 ∧ 10 + r % 90 ≤ 99 ∧
    (natDigits (10 + r % 90)).length = 2 := by
  have hr : r % 90 < 90 := Nat.mod_lt _ (by omega)
  refine ⟨?_, by omega, by omega, natDigits_length_two (by omega) (by omega)⟩
  have hlen : outputDir.length > 0 := by
    cases outputDir with
    | nil => exact absurd rfl h
    | cons c cs => simp
  simp [setFileName, timeString, hlen, List.append_assoc]

/-- The measurement-only part of the state (everything except the sink). -/
def meas (s : Profiler) : List Dbl × Dbl × Dbl × Nat × Bool × Dbl :=
  (s.buffer, s.total, s.part, s.count, s.isInit, s.startPoint)

/-- Replace the sink part of a state. -/
def withSink (s : Profiler) (b : Bool) (f : Option (List Char)) : Profiler :=
  { s with sinkOpen := b, file := f }

/-- C8: immediately after a sample is appended — `takeSample` outside its
error branch, or `takeAverageSample` with `count > 0` — both `count` and
`partial` are 0 (so `count = 0` implies `partial = 0`). -/
theorem c8_invariant (s : Profiler) (now : Dbl) (pr : Bool) :
    (¬(s.isInit = false ∧ s.count = 0) →
      (takeSample now pr s).1.count = 0 ∧ (takeSample now pr s).1.part = 0) ∧
    (0 < s.count →
      (takeAverageSample pr s).1.count = 0 ∧
        (takeAverageSample pr s).1.part = 0) := by
  constructor
  · intro h
    have hcond : (!s.isInit && s.count == 0) = false := by
      cases hi : s.isInit <;> simp_all
    simp [takeSample, hcond]
  · intro h
    simp [takeAverageSample, Nat.pos_iff_ne_zero.mp h]

/-- C9: with an empty output directory no sink is opened and no file is
created; every measurement operation neither reads nor writes the sink
(same measurement effect and same diagnostics for any sink contents), and
`flush` on a closed sink writes nothing — it only performs `reset`. -/
theorem c9_noSink (name colour unit : List Char) (ok : Bool) (s : Profiler)
    (hs : s.sinkOpen = false) (now : Dbl) (pr : Bool) (b : Bool)
    (f : Option (List Char)) :
    (mkProfiler name colour [] unit ok).sinkOpen = false ∧
    (mkProfiler name colour [] unit ok).file = none ∧
    flush s = reset s ∧
    (flush s).file = s.file ∧
    meas (start now (withSink s b f)) = meas (start now s) ∧
    meas (pause now (withSink s b f)).1 = meas (pause now s).1 ∧
    (pause now (withSink s b f)).2 = (pause now s).2 ∧
    meas (takeSample now pr (withSink s b f)).1 = meas (takeSample now pr s).1 ∧
    (takeSample now pr (withSink s b f)).2 = (takeSample now pr s).2 ∧
    meas (takeAverageSample pr (withSink s b f)).1
      = meas (takeAverageSample pr s).1 ∧
    (takeAverageSample pr (withSink s b f)).2 = (takeAverageSample pr s).2 ∧
    meas (reset (withSink s b f)) = meas (reset s) := by
  have hflush : flush s = reset s := by simp [flush, hs]
  refine ⟨rfl, rfl, hflush, ?_, rfl, ?_, ?_, ?_, ?_, ?_, ?_, rfl⟩
  · rw [hflush]
    simp [reset]
  all_goals
    cases hi : s.isInit <;> cases hc : Nat.decEq s.count 0 <;>
      simp_all [pause, takeSample, takeAverageSample, withSink, meas,
        elapsedTime]

/-- C10: when `count > 0` and the timer is running, `takeSample` appends
exactly the pause-accumulated `partial` and adds it to `total`; the result
is independent of the current clock reading, so the still-running segment
since the last `start` is silently discarded. -/
theorem c10_takeSample_discard (s : Profiler) (now now2 : Dbl) (pr : Bool)
    (hc : 0 < s.count) (hr : s.isInit = true) :
    (takeSample now pr s).1.buffer = s.buffer ++ [s.part] ∧
    (takeSample now pr s).1.total = s.total + s.part ∧
    takeSample now pr s = takeSample now2 pr s := by
  simp [takeSample, Nat.pos_iff_ne_zero.mp hc, hr]

/-! ## Concrete instantiations of the hypotheses-bearing theorems -/

theorem c1_witness :
    ((takeAverageSample false pausedProf).1.buffer
        = pausedProf.buffer ++ [pausedProf.part / (pausedProf.count : Dbl)] ∧
      (takeAverageSample false pausedProf).1.total
        = pausedProf.total + pausedProf.part ∧
      (takeAverageSample false pausedProf).1.part = 0 ∧
      (takeAverageSample false pausedProf).1.count = 0 ∧
      (takeAverageSample false pausedProf).1.isInit = false) ∧
    (takeAverageSample false (runSegments emptyProf [((2 : Dbl), (5 : Dbl))])).1.buffer
      = emptyProf.buffer
        ++ [(([((2 : Dbl), (5 : Dbl))]).map (fun g => g.2 - g.1)).sum
            / (([((2 : Dbl), (5 : Dbl))].length : Nat) : Dbl)] :=
  c1_takeAverageSample pausedProf false (by decide) emptyProf false
    [(2, 5)] rfl rfl (by simp)

theorem c2_witness :
    (flush sampledProf).file
      = some (("\x7b\"dataSet\" : [\n\x7b\"name\": \"").data ++ ("n").data
        ++ ("\", \"color\": \"").data ++ ("c").data ++ ("\", \"data\":[").data
        ++ joinCommaSep (sampledProf.buffer.map ratDigits)
        ++ ("]\x7d\n], \"timeUnits\": \"").data ++ sampledProf.unit
        ++ ("\"\x7d\n").data) ∧
    (sampledProf.buffer.map ratDigits).length = sampledProf.buffer.length ∧
    (∀ nm cl dir u ok, (mkProfiler nm cl dir u ok).unit = u) :=
  c2_flush_layout sampledProf ("n").data ("c").data (by decide) (by decide)

theorem c3_witness :
    (parseDataList (joinData repProf.buffer false [])
        = repProf.buffer.map (fun v => parseRat (ratDigits v))) ∧
    parseDataList (joinData repProf.buffer false []) = repProf.buffer :=
  c3_roundTrip repProf (by decide)

theorem c4_witness :
    takeSample 3 false emptyProf
      = (emptyProf, [("Timer did not start.\n").data]) :=
  c4_takeSample_neverStarted emptyProf 3 false rfl rfl

theorem c5_witness :
    (takeSample 7 false (start 2 emptyProf)).1.buffer
      = emptyProf.buffer ++ [(7 : Dbl) - 2] ∧
    (takeSample 7 false (start 2 emptyProf)).1.total
      = emptyProf.total + ((7 : Dbl) - 2) ∧
    (takeSample 7 false (start 2 emptyProf)).1.count = 0 ∧
    (takeSample 7 false (start 2 emptyProf)).1.part = 0 ∧
    (takeSample 7 false (start 2 emptyProf)).1.isInit = false :=
  c5_singleShot emptyProf 2 7 false rfl

theorem c7_witness :
    setFileName ("o").data ("n").data ("line_dataset_").data 7
        ⟨25, 10, 11, 12, 30, 59⟩
      = ("o").data ++ ("/").data ++ ("line_dataset_").data ++ ("n").data
        ++ natDigits (10 + 7 % 90)
        ++ ('_' :: (twoDigits 25 ++ twoDigits 10 ++ twoDigits 11
          ++ twoDigits 12 ++ twoDigits 30 ++ twoDigits 59))
        ++ (".js").data ∧
    10 ≤ 10 + 7 % 90 ∧ 10 + 7 % 90 ≤ 99 ∧
    (natDigits (10 + 7 % 90)).length = 2 :=
  c7_fileName ("o").data ("n").data 7 ⟨25, 10, 11, 12, 30, 59⟩ (by decide)

theorem c8_witness :
    ((takeSample 9 false pausedProf).1.count = 0 ∧
      (takeSample 9 false pausedProf).1.part = 0) ∧
    ((takeAverageSample false pausedProf).1.count = 0 ∧
      (takeAverageSample false pausedProf).1.part = 0) :=
  ⟨(c8_invariant pausedProf 9 false).1 (by decide),
    (c8_invariant pausedProf 9 false).2 (by decide)⟩

theorem c9_witness :
    (mkProfiler ("n").data ("c").data [] ("ms").data true).sinkOpen = false ∧
    (mkProfiler ("n").data ("c").data [] ("ms").data true).file = none ∧
    flush emptyProf = reset emptyProf ∧
    (flush emptyProf).file = emptyProf.file ∧
    meas (start 3 (withSink emptyProf true (some [])))
      = meas (start 3 emptyProf) ∧
    meas (pause 3 (withSink emptyProf true (some []))).1
      = meas (pause 3 emptyProf).1 ∧
    (pause 3 (withSink emptyProf true (some []))).2 = (pause 3 emptyProf).2 ∧
    meas (takeSample 3 false (withSink emptyProf true (some []))).1
      = meas (takeSample 3 false emptyProf).1 ∧
    (takeSample 3 false (withSink emptyProf true (some []))).2
      = (takeSample 3 false emptyProf).2 ∧
    meas (takeAverageSample false (withSink emptyProf true (some []))).1
      = meas (takeAverageSample false emptyProf).1 ∧
    (takeAverageSample false (withSink emptyProf true (some []))).2
      = (takeAverageSample false emptyProf).2 ∧
    meas (reset (withSink emptyProf true (some []))) = meas (reset emptyProf) :=
  c9_noSink ("n").data ("c").data ("ms").data true emptyProf (by decide) 3
    false true (some [])

theorem c10_witness :
    (takeSample 9 false (start 7 pausedProf)).1.buffer
      = (start 7 pausedProf).buffer ++ [(start 7 pausedProf).part] ∧
    (takeSample 9 false (start 7 pausedProf)).1.total
      = (start 7 pausedProf).total + (start 7 pausedProf).part ∧
    takeSample 9 false (start 7 pausedProf)
      = takeSample 11 false (start 7 pausedProf) :=
  c10_takeSample_discard (start 7 pausedProf) 9 11 false (by decide) rfl

end TProfiler
